import Mathlib

/-!
Verification of the mkdocs module-catalog hook
(`docs/mkdocs/hooks/module_catalog.py`).

The whole program is a single Python file.  We give a shallow embedding:
strings are lists of characters, the filesystem objects the hook inspects
(a base directory with entries, each entry optionally carrying a
`pyproject.toml` parse result and a `README.md` text) are explicit
structures, and each Python function becomes a Lean function of the same
name.  Python string operations (`in`, `replace`, `split`, `join`,
`startswith`, slicing, `title`, `upper`) are modelled by executable
functions over `List Char` with the same semantics.
-/

namespace ModuleCatalog

/-- Strings are modelled as lists of characters so that every string
operation of the hook is a structurally recursive, executable function. -/
abbrev Str : Type := List Char

/-- Coercion from Lean string literals into the model. -/
def str (s : String) : Str := s.data

/-- Python substring test `pat in s`: true when `pat` occurs as a
contiguous substring of `s` (the empty pattern occurs in every string). -/
def containsSub (pat : Str) : Str → Bool
  | [] => pat.isPrefixOf []
  | c :: rest => pat.isPrefixOf (c :: rest) || containsSub pat rest

/-- Fuel-driven worker for Python `s.replace(old, rep)`: scans left to
right, replacing each non-overlapping occurrence of `old`.  The fuel is
always instantiated with the length of the string, which suffices. -/
def pyReplaceAux (old rep : Str) : Nat → Str → Str
  | 0, s => s
  | _ + 1, [] => []
  | fuel + 1, c :: rest =>
    if !old.isEmpty && old.isPrefixOf (c :: rest) then
      rep ++ pyReplaceAux old rep fuel ((c :: rest).drop old.length)
    else
      c :: pyReplaceAux old rep fuel rest

/-- Python `s.replace(old, rep)` for a non-empty `old`: every occurrence
of `old` in `s`, scanning left to right without overlap, is replaced by
`rep`.  (For the empty pattern this returns `s` unchanged; the hook only
ever replaces non-empty markers.) -/
def pyReplace (s old rep : Str) : Str := pyReplaceAux old rep s.length s

/-- Fuel-driven worker for Python `s.split(old)`: the list of fragments
of `s` between non-overlapping occurrences of `old`. -/
def replPartsAux (old : Str) : Nat → Str → List Str
  | 0, s => [s]
  | _ + 1, [] => [[]]
  | fuel + 1, c :: rest =>
    if !old.isEmpty && old.isPrefixOf (c :: rest) then
      [] :: replPartsAux old fuel ((c :: rest).drop old.length)
    else
      match replPartsAux old fuel rest with
      | [] => [[c]]
      | p :: ps => (c :: p) :: ps

/-- Python `s.split(old)` for a non-empty separator `old`. -/
def replParts (s old : Str) : List Str := replPartsAux old s.length s

/-- Python `sep.join(parts)`. -/
def joinSep (sep : Str) : List Str → Str
  | [] => []
  | [p] => p
  | p :: q :: ps => p ++ sep ++ joinSep sep (q :: ps)

/-- Python `str.title()`: an alphabetic character not preceded by an
alphabetic character is upper-cased, any other alphabetic character is
lower-cased, non-alphabetic characters pass through. -/
def pyTitleAux : Bool → Str → Str
  | _, [] => []
  | prevAlpha, c :: rest =>
    (if c.isAlpha then (if prevAlpha then c.toLower else c.toUpper) else c) ::
      pyTitleAux c.isAlpha rest

/-- Python `s.title()`. -/
def pyTitle (s : Str) : Str := pyTitleAux false s

/-- Python `s.upper()` (ASCII, which covers every key the hook upper-cases). -/
def pyUpper (s : Str) : Str := s.map Char.toUpper

/-- Python string comparison `a <= b`: lexicographic by character code. -/
def strLe : Str → Str → Bool
  | [], _ => true
  | _ :: _, [] => false
  | a :: as, b :: bs => if a < b then true else if b < a then false else strLe as bs

/-- The five module categories of the `MODULE_TYPES` table (the keys of
the Python dict, in its fixed insertion order). -/
inductive ModuleType where
  | provider
  | tool
  | hooks
  | loop
  | context
  deriving DecidableEq, Fintype

/-- One entry of the `MODULE_TYPES` table.  The source field `prefix` is
called `prefixStr` here because `prefix` is reserved in Lean. -/
structure TypeConfig where
  prefixStr : Str
  docs_path : Str
  display_name : Str
  description : Str
  deriving DecidableEq

/-- The `MODULE_TYPES` table, viewed as the map from key to entry. -/
def MODULE_TYPES : ModuleType → TypeConfig
  | .provider =>
    { prefixStr := str "amplifier-module-provider-"
      docs_path := str "modules/providers"
      display_name := str "Providers"
      description := str "LLM backend integrations" }
  | .tool =>
    { prefixStr := str "amplifier-module-tool-"
      docs_path := str "modules/tools"
      display_name := str "Tools"
      description := str "Agent capabilities" }
  | .hooks =>
    { prefixStr := str "amplifier-module-hooks-"
      docs_path := str "modules/hooks"
      display_name := str "Hooks"
      description := str "Observability and control" }
  | .loop =>
    { prefixStr := str "amplifier-module-loop-"
      docs_path := str "modules/orchestrators"
      display_name := str "Orchestrators"
      description := str "Execution loop strategies" }
  | .context =>
    { prefixStr := str "amplifier-module-context-"
      docs_path := str "modules/contexts"
      display_name := str "Contexts"
      description := str "Memory management" }

/-- The iteration order of the `MODULE_TYPES` dict (Python dicts iterate
in insertion order). -/
def moduleTypeKeys : List ModuleType := [.provider, .tool, .hooks, .loop, .context]

/-- The string form of a category key, as written in the Python dict. -/
def keyStr : ModuleType → Str
  | .provider => str "provider"
  | .tool => str "tool"
  | .hooks => str "hooks"
  | .loop => str "loop"
  | .context => str "context"

/-- Relevant content of a successfully parsed `pyproject.toml`:
`project.description`, `project.version` (absent keys modelled as
`none`), and the keys of `project.entry-points."amplifier.modules"` in
document order. -/
structure PyprojectData where
  description : Option Str
  version : Option Str
  entryPointKeys : List Str
  deriving DecidableEq

/-- One entry of the base directory, as the hook observes it.
`pyproject = none` means no `pyproject.toml` file exists; `some none`
means the file exists but `tomli.load` raises; `some (some d)` means it
parses to `d`.  `readme = none` means no `README.md`; `some none` means
reading it raises; `some (some txt)` means it reads to `txt`. -/
structure DirEntry where
  name : Str
  isDir : Bool
  pyproject : Option (Option PyprojectData)
  readme : Option (Option Str)
  deriving DecidableEq

/-- The base directory scanned by `discover_modules`: its path string and
its entries in iteration order. -/
structure Dir where
  path : Str
  entries : List DirEntry
  deriving DecidableEq

/-- The module-record dict built by `get_module_info` (with the
`short_name` key that `discover_modules` adds later, defaulted to the
empty string until it is set). -/
structure ModuleInfo where
  name : Str
  path : Str
  description : Str
  version : Str
  entry_point : Str
  readme_content : Str
  short_name : Str
  deriving DecidableEq

/-- Embedding of `get_module_info`.  `tomliAvail` models whether the
optional `tomli` import succeeded at module load.  Returns `none`
exactly when there is no `pyproject.toml` (the directory is not a
module); a parse or read failure only logs a warning and keeps the
defaulted fields. -/
def get_module_info (tomliAvail : Bool) (basePath : Str) (e : DirEntry) :
    Option ModuleInfo :=
  match e.pyproject with
  | none => none
  | some parseResult =>
    let info0 : ModuleInfo :=
      { name := e.name
        path := basePath ++ str "/" ++ e.name
        description := []
        version := []
        entry_point := []
        readme_content := []
        short_name := [] }
    let info1 :=
      if tomliAvail then
        match parseResult with
        | none => info0
        | some d =>
          { info0 with
            description := d.description.getD []
            version := d.version.getD []
            entry_point :=
              match d.entryPointKeys with
              | [] => []
              | k :: _ => k }
      else info0
    let info2 :=
      match e.readme with
      | none => info1
      | some none => info1
      | some (some txt) => { info1 with readme_content := txt }
    some info2

/-- The relation `discover_modules` sorts by: comparison of short names
(the `key=lambda x: x["short_name"]` of the Python `list.sort`). -/
def shortNameLe (a b : ModuleInfo) : Prop :=
  strLe a.short_name b.short_name = true

instance : DecidableRel shortNameLe := fun a b => by
  unfold shortNameLe
  infer_instance

/-- The records one category collects inside `discover_modules`, in
directory iteration order, before sorting: directories whose name starts
with the category prefix and for which `get_module_info` returns a
record, with `short_name` set to the name with the prefix sliced off. -/
def collectFor (tomliAvail : Bool) (base : Dir) (t : ModuleType) : List ModuleInfo :=
  base.entries.filterMap (fun e =>
    if e.isDir && (MODULE_TYPES t).prefixStr.isPrefixOf e.name then
      (get_module_info tomliAvail base.path e).map
        (fun i => { i with short_name := e.name.drop (MODULE_TYPES t).prefixStr.length })
    else none)

/-- Embedding of `discover_modules`: every category key is mapped to its
collected records sorted by short name.  `List.insertionSort` is a
stable sort, hence produces the same list as Python `list.sort`. -/
def discover_modules (tomliAvail : Bool) (base : Dir) :
    List (ModuleType × List ModuleInfo) :=
  moduleTypeKeys.map (fun t =>
    (t, List.insertionSort shortNameLe (collectFor tomliAvail base t)))

/-- The fixed page template of `generate_module_page` up to the final
`---` separator (everything the f-string produces before the readme is
appended). -/
def pageContentHeader (module_info : ModuleInfo) (module_type : ModuleType) : Str :=
  str "# " ++ pyTitle (pyReplace module_info.short_name (str "-") (str " ")) ++
  str "\n\n" ++ module_info.description ++
  str "\n\n## Overview\n\n| Property | Value |\n|----------|-------|\n| **Module ID** | `" ++
  module_info.entry_point ++
  str "` |\n| **Package** | `" ++ module_info.name ++
  str "` |\n| **Type** | " ++ (MODULE_TYPES module_type).display_name ++
  str " |\n| **Repository** | [github.com/microsoft/" ++ module_info.name ++
  str "](https://github.com/microsoft/" ++ module_info.name ++
  str ") |\n\n## Installation\n\nThis module is installed automatically when referenced in a profile or mount plan.\n\n```yaml\n" ++
  keyStr module_type ++
  str "s:\n  - module: " ++ module_info.entry_point ++
  str "\n    source: git+https://github.com/microsoft/" ++ module_info.name ++
  str "@main\n```\n\n## Documentation\n\nThe full documentation for this module is maintained in its repository:\n\n**[View Full Documentation →](https://github.com/microsoft/" ++
  module_info.name ++
  str ")**\n\n---\n\n"

/-- The readme-filter loop of `generate_module_page`: the Boolean is the
`skip_first_heading` flag, initially `false`. -/
def headingFilterGo : Bool → List Str → List Str
  | _, [] => []
  | skipped, line :: rest =>
    if (str "# ").isPrefixOf line && !skipped then
      headingFilterGo true rest
    else
      line :: headingFilterGo skipped rest

/-- Embedding of `generate_module_page`. -/
def generate_module_page (module_info : ModuleInfo) (module_type : ModuleType) : Str :=
  let content := pageContentHeader module_info module_type
  if module_info.readme_content.isEmpty then content
  else
    let lines := replParts module_info.readme_content (str "\n")
    let filtered_lines := headingFilterGo false lines
    if filtered_lines.isEmpty then content
    else content ++ joinSep (str "\n") filtered_lines

/-- One table row of the catalog: the markdown link and the description
cell, truncated at 80 characters with an appended ellipsis. -/
def catalogRow (t : ModuleType) (m : ModuleInfo) : Str :=
  str "| [" ++ m.short_name ++ str "](" ++ (MODULE_TYPES t).docs_path ++ str "/" ++
  pyReplace m.short_name (str "-") (str "_") ++ str ".md) | " ++
  (if 80 < m.description.length then m.description.take 80 ++ str "..."
   else m.description) ++
  str " |\n"

/-- One category section of the catalog (only emitted for a non-empty
record list). -/
def catalogSection (t : ModuleType) (module_list : List ModuleInfo) : Str :=
  str "\n### " ++ (MODULE_TYPES t).display_name ++ str "\n\n" ++
  (MODULE_TYPES t).description ++
  str "\n\n| Module | Description |\n|--------|-------------|\n" ++
  module_list.foldl (fun acc m => acc ++ catalogRow t m) [] ++
  str "\n"

/-- Embedding of `generate_module_catalog`. -/
def generate_module_catalog (modules : List (ModuleType × List ModuleInfo)) : Str :=
  modules.foldl
    (fun content p => if p.2.isEmpty then content else content ++ catalogSection p.1 p.2)
    []

/-- One HTML card of `generate_module_list`. -/
def moduleCard (m : ModuleInfo) : Str :=
  str "\n<div class=\"module-card\">\n<div class=\"content\">\n<h4><a href=\"" ++
  pyReplace m.short_name (str "-") (str "_") ++ str ".md\">" ++
  pyTitle (pyReplace m.short_name (str "-") (str " "))  ++
  str "</a></h4>\n<p>" ++ m.description ++ str "</p>\n<code>" ++ m.entry_point ++
  str "</code>\n</div>\n</div>\n"

/-- Embedding of `generate_module_list` (the `module_type` argument is
unused in the source as well). -/
def generate_module_list (modules : List ModuleInfo) (module_type : ModuleType) : Str :=
  if modules.isEmpty then str "*No modules found.*"
  else modules.foldl (fun content m => content ++ moduleCard m) []

/-- The build configuration as far as the hook touches it: `base` is the
directory found two parent levels above the configured docs directory
(`none` when that path does not exist, the standalone mode), and
`amplifier_modules` is the key `on_config` stores (`none` before
`on_config` has run, so that `config.get` falls back to its default). -/
structure BuildConfig where
  base : Option Dir
  amplifier_modules : Option (List (ModuleType × List ModuleInfo))

/-- The dict comprehension of the standalone branch of `on_config`:
every category mapped to the empty list. -/
def emptyModules : List (ModuleType × List ModuleInfo) :=
  moduleTypeKeys.map (fun k => (k, []))

/-- Embedding of `on_config`. -/
def on_config (tomliAvail : Bool) (config : BuildConfig) : BuildConfig :=
  let modules :=
    match config.base with
    | none => emptyModules
    | some d =>
      if d.entries.any (fun p => p.isDir && (str "amplifier-module-").isPrefixOf p.name) then
        discover_modules tomliAvail d
      else emptyModules
  { config with amplifier_modules := some modules }

/-- The literal `<!-- MODULE_CATALOG -->` placeholder. -/
def catalogMarker : Str := str "<!-- MODULE_CATALOG -->"

/-- The per-category placeholder `<!-- MODULE_LIST_{KEY} -->`. -/
def listPlaceholder (t : ModuleType) : Str :=
  str "<!-- MODULE_LIST_" ++ pyUpper (keyStr t) ++ str " -->"

/-- One conditional replacement of `on_page_markdown`: if the marker
occurs in the page, replace every occurrence, otherwise leave the page
alone. -/
def applyStep (md : Str) (st : Str × Str) : Str :=
  if containsSub st.1 md then pyReplace md st.1 st.2 else md

/-- A sequence of conditional replacements, applied left to right. -/
def applySteps (steps : List (Str × Str)) (md : Str) : Str :=
  steps.foldl applyStep md

/-- Embedding of `on_page_markdown`: the catalog marker is handled
first, then each category marker in `MODULE_TYPES` order. -/
def on_page_markdown (markdown : Str) (config : BuildConfig) : Str :=
  let modules := config.amplifier_modules.getD []
  let md1 := applyStep markdown (catalogMarker, generate_module_catalog modules)
  moduleTypeKeys.foldl
    (fun md t =>
      applyStep md (listPlaceholder t, generate_module_list ((modules.lookup t).getD []) t))
    md1

/-- The marker/replacement pairs `on_page_markdown` processes, in order. -/
def stepsFor (modules : List (ModuleType × List ModuleInfo)) : List (Str × Str) :=
  (catalogMarker, generate_module_catalog modules) ::
    moduleTypeKeys.map (fun t =>
      (listPlaceholder t, generate_module_list ((modules.lookup t).getD []) t))

/-- All six placeholder markers the hook recognizes. -/
def allMarkers : List Str := catalogMarker :: moduleTypeKeys.map listPlaceholder



/-- The readme text `get_module_info` ends up storing for an entry: the
file content when the file exists and reads successfully, otherwise
empty. -/
def readmeOf (e : DirEntry) : Str :=
  match e.readme with
  | some (some txt) => txt
  | _ => []

/-! Supporting lemmas about the string model and the embedded hook. -/

/-- The fuel of `pyReplaceAux` is irrelevant as soon as it dominates the
length of the string being scanned. -/
lemma pyReplaceAux_fuel (old rep : Str) :
    ∀ fuel s, s.length ≤ fuel →
      pyReplaceAux old rep fuel s = pyReplaceAux old rep s.length s := by
  intro fuel
  induction fuel using Nat.strong_induction_on with
  | _ fuel ih =>
    intro s hs
    match fuel, s with
    | 0, s =>
      have : s = [] := List.eq_nil_of_length_eq_zero (Nat.le_zero.mp hs)
      subst this
      rfl
    | n + 1, [] => rfl
    | n + 1, c :: rest =>
      simp only [pyReplaceAux, List.length_cons]
      have hrest : rest.length ≤ n := by simpa [List.length_cons] using hs
      by_cases hcond : (!old.isEmpty && old.isPrefixOf (c :: rest)) = true
      · simp only [hcond, if_true]
        have hpos : 1 ≤ old.length := by
          rcases old with _ | ⟨o, os⟩
          · simp [List.isEmpty] at hcond
          · simp [List.length_cons]
        have hd : ((c :: rest).drop old.length).length ≤ rest.length := by
          simp only [List.length_drop, List.length_cons]
          omega
        rw [ih n (Nat.lt_succ_self n) _ (le_trans hd hrest),
          ← ih rest.length (Nat.lt_succ_of_le hrest) _ hd]
      · simp only [hcond, if_false, Bool.false_eq_true]
        rw [ih n (Nat.lt_succ_self n) _ hrest,
          ← ih rest.length (Nat.lt_succ_of_le hrest) _ (Nat.le_refl rest.length)]

/-- The fuel of `replPartsAux` is irrelevant as soon as it dominates the
length of the string being scanned. -/
lemma replPartsAux_fuel (old : Str) :
    ∀ fuel s, s.length ≤ fuel →
      replPartsAux old fuel s = replPartsAux old s.length s := by
  intro fuel
  induction fuel using Nat.strong_induction_on with
  | _ fuel ih =>
    intro s hs
    match fuel, s with
    | 0, s =>
      have : s = [] := List.eq_nil_of_length_eq_zero (Nat.le_zero.mp hs)
      subst this
      rfl
    | n + 1, [] => rfl
    | n + 1, c :: rest =>
      simp only [replPartsAux, List.length_cons]
      have hrest : rest.length ≤ n := by simpa [List.length_cons] using hs
      by_cases hcond : (!old.isEmpty && old.isPrefixOf (c :: rest)) = true
      · simp only [hcond, if_true]
        have hpos : 1 ≤ old.length := by
          rcases old with _ | ⟨o, os⟩
          · simp [List.isEmpty] at hcond
          · simp [List.length_cons]
        have hd : ((c :: rest).drop old.length).length ≤ rest.length := by
          simp only [List.length_drop, List.length_cons]
          omega
        rw [ih n (Nat.lt_succ_self n) _ (le_trans hd hrest),
          ← ih rest.length (Nat.lt_succ_of_le hrest) _ hd]
      · simp only [hcond, if_false, Bool.false_eq_true]
        rw [ih n (Nat.lt_succ_self n) _ hrest,
          ← ih rest.length (Nat.lt_succ_of_le hrest) _ (Nat.le_refl rest.length)]

@[simp] lemma pyReplace_nil (old rep : Str) : pyReplace [] old rep = [] := rfl

/-- Unfolding equation for `pyReplace` when the pattern matches at the head. -/
lemma pyReplace_cons_pos {old : Str} (rep : Str) {c : Char} {rest : Str}
    (h : (!old.isEmpty && old.isPrefixOf (c :: rest)) = true) :
    pyReplace (c :: rest) old rep =
      rep ++ pyReplace ((c :: rest).drop old.length) old rep := by
  have hpos : 1 ≤ old.length := by
    rcases old with _ | ⟨o, os⟩
    · simp [List.isEmpty] at h
    · simp [List.length_cons]
  have hd : ((c :: rest).drop old.length).length ≤ rest.length := by
    simp only [List.length_drop, List.length_cons]
    omega
  simp only [pyReplace, List.length_cons, pyReplaceAux, h, if_true]
  rw [pyReplaceAux_fuel old rep rest.length _ hd]

/-- Unfolding equation for `pyReplace` when the pattern does not match at
the head. -/
lemma pyReplace_cons_neg {old : Str} (rep : Str) {c : Char} {rest : Str}
    (h : (!old.isEmpty && old.isPrefixOf (c :: rest)) = false) :
    pyReplace (c :: rest) old rep = c :: pyReplace rest old rep := by
  simp only [pyReplace, List.length_cons, pyReplaceAux, h, Bool.false_eq_true, if_false]

@[simp] lemma replParts_nil (old : Str) : replParts [] old = [[]] := rfl

/-- Unfolding equation for `replParts` when the separator matches at the head. -/
lemma replParts_cons_pos {old : Str} {c : Char} {rest : Str}
    (h : (!old.isEmpty && old.isPrefixOf (c :: rest)) = true) :
    replParts (c :: rest) old = [] :: replParts ((c :: rest).drop old.length) old := by
  have hpos : 1 ≤ old.length := by
    rcases old with _ | ⟨o, os⟩
    · simp [List.isEmpty] at h
    · simp [List.length_cons]
  have hd : ((c :: rest).drop old.length).length ≤ rest.length := by
    simp only [List.length_drop, List.length_cons]
    omega
  simp only [replParts, List.length_cons, replPartsAux, h, if_true]
  rw [replPartsAux_fuel old rest.length _ hd]

/-- Unfolding equation for `replParts` when the separator does not match
at the head. -/
lemma replParts_cons_neg {old : Str} {c : Char} {rest : Str}
    (h : (!old.isEmpty && old.isPrefixOf (c :: rest)) = false) :
    replParts (c :: rest) old =
      match replParts rest old with
      | [] => [[c]]
      | p :: ps => (c :: p) :: ps := by
  simp only [replParts, List.length_cons, replPartsAux, h, Bool.false_eq_true, if_false]

/-- A split never produces an empty list of fragments. -/
lemma replParts_ne_nil (s old : Str) : replParts s old ≠ [] := by
  induction s with
  | nil => simp
  | cons c rest ih =>
    by_cases hcond : (!old.isEmpty && old.isPrefixOf (c :: rest)) = true
    · rw [replParts_cons_pos hcond]
      simp
    · rw [replParts_cons_neg (Bool.not_eq_true _ ▸ hcond)]
      rcases hp : replParts rest old with _ | ⟨p, ps⟩ <;> simp

/-- A string containing no occurrence of the pattern is unchanged by
`pyReplace`. -/
lemma pyReplace_of_not_contains {s old : Str} (rep : Str)
    (h : containsSub old s = false) : pyReplace s old rep = s := by
  induction s with
  | nil => rfl
  | cons c rest ih =>
    simp only [containsSub, Bool.or_eq_false_iff] at h
    have hneg : (!old.isEmpty && old.isPrefixOf (c :: rest)) = false := by
      simp [h.1]
    rw [pyReplace_cons_neg rep hneg, ih h.2]

/-- A string containing no occurrence of the pattern splits into the
single fragment that is the string itself. -/
lemma replParts_of_not_contains {s old : Str}
    (h : containsSub old s = false) : replParts s old = [s] := by
  induction s with
  | nil => rfl
  | cons c rest ih =>
    simp only [containsSub, Bool.or_eq_false_iff] at h
    have hneg : (!old.isEmpty && old.isPrefixOf (c :: rest)) = false := by
      simp [h.1]
    rw [replParts_cons_neg hneg, ih h.2]

/-- Python `replace` is the join of the split: every occurrence of the
pattern is replaced by the same replacement string. -/
lemma pyReplace_eq_joinSep (old rep : Str) :
    ∀ n s, s.length ≤ n → pyReplace s old rep = joinSep rep (replParts s old) := by
  intro n
  induction n with
  | zero =>
    intro s hs
    have : s = [] := List.eq_nil_of_length_eq_zero (Nat.le_zero.mp hs)
    subst this
    rfl
  | succ n ih =>
    intro s hs
    match s with
    | [] => rfl
    | c :: rest =>
      by_cases hcond : (!old.isEmpty && old.isPrefixOf (c :: rest)) = true
      · have hpos : 1 ≤ old.length := by
          rcases old with _ | ⟨o, os⟩
          · simp [List.isEmpty] at hcond
          · simp [List.length_cons]
        have hlen : ((c :: rest).drop old.length).length ≤ n := by
          simp only [List.length_drop, List.length_cons]
          have : rest.length ≤ n := by simpa [List.length_cons] using hs
          omega
        rw [pyReplace_cons_pos rep hcond, replParts_cons_pos hcond, ih _ hlen]
        rcases hp : replParts ((c :: rest).drop old.length) old with _ | ⟨p, ps⟩
        · exact absurd hp (replParts_ne_nil _ _)
        · simp [joinSep]
      · have hneg : (!old.isEmpty && old.isPrefixOf (c :: rest)) = false :=
          Bool.not_eq_true _ ▸ hcond
        have hlen : rest.length ≤ n := by simpa [List.length_cons] using hs
        rw [pyReplace_cons_neg rep hneg, replParts_cons_neg hneg, ih _ hlen]
        rcases hp : replParts rest old with _ | ⟨p, ps⟩
        · exact absurd hp (replParts_ne_nil _ _)
        · rcases ps with _ | ⟨q, qs⟩ <;> simp [joinSep]

/-- An explicit occurrence of the pattern makes the substring test true. -/
lemma containsSub_append (old a b : Str) : containsSub old (a ++ old ++ b) = true := by
  induction a with
  | nil =>
    rcases hold : old ++ b with _ | ⟨c, cs⟩
    · rcases List.append_eq_nil.mp hold with ⟨h1, h2⟩
      subst h1
      subst h2
      rfl
    · simp only [List.nil_append, hold, containsSub]
      have : old.isPrefixOf (c :: cs) = true := by
        rw [List.isPrefixOf_iff_prefix, ← hold]
        exact List.prefix_append old b
      simp [this]
  | cons x xs ih =>
    simp only [List.cons_append, containsSub, List.append_eq]
    rw [ih]
    simp

/-- A split into at least two fragments witnesses an occurrence of the
pattern. -/
lemma containsSub_of_replParts_length {s old : Str}
    (h : 2 ≤ (replParts s old).length) : containsSub old s = true := by
  by_contra hc
  have hc' : containsSub old s = false := Bool.not_eq_true _ ▸ hc
  rw [replParts_of_not_contains hc'] at h
  simp at h


lemma strLe_cons_iff {a b : Char} {as bs : Str} :
    strLe (a :: as) (b :: bs) = true ↔ a < b ∨ (a = b ∧ strLe as bs = true) := by
  simp only [strLe]
  rcases lt_trichotomy a b with h | h | h
  · simp [h, asymm h]
  · simp [h, lt_irrefl]
  · simp [h, asymm h, not_lt_of_gt h, ne_of_gt h]

lemma strLe_total : ∀ a b : Str, strLe a b = true ∨ strLe b a = true := by
  intro a
  induction a with
  | nil => intro b; left; rfl
  | cons x xs ih =>
    intro b
    rcases b with _ | ⟨y, ys⟩
    · right; rfl
    · rcases lt_trichotomy x y with h | h | h
      · left; exact strLe_cons_iff.mpr (Or.inl h)
      · subst h
        rcases ih ys with h' | h'
        · left; exact strLe_cons_iff.mpr (Or.inr ⟨rfl, h'⟩)
        · right; exact strLe_cons_iff.mpr (Or.inr ⟨rfl, h'⟩)
      · right; exact strLe_cons_iff.mpr (Or.inl h)

lemma strLe_trans : ∀ a b c : Str, strLe a b = true → strLe b c = true → strLe a c = true := by
  intro a
  induction a with
  | nil => intro b c _ _; rfl
  | cons x xs ih =>
    intro b c hab hbc
    rcases b with _ | ⟨y, ys⟩
    · simp [strLe] at hab
    · rcases c with _ | ⟨z, zs⟩
      · simp [strLe] at hbc
      · rcases strLe_cons_iff.mp hab with h1 | ⟨h1, h1'⟩ <;>
          rcases strLe_cons_iff.mp hbc with h2 | ⟨h2, h2'⟩
        · exact strLe_cons_iff.mpr (Or.inl (lt_trans h1 h2))
        · exact strLe_cons_iff.mpr (Or.inl (h2 ▸ h1))
        · exact strLe_cons_iff.mpr (Or.inl (h1 ▸ h2))
        · exact strLe_cons_iff.mpr (Or.inr ⟨h1.trans h2, ih ys zs h1' h2'⟩)


instance : IsTotal ModuleInfo shortNameLe :=
  ⟨fun a b => strLe_total a.short_name b.short_name⟩

instance : IsTrans ModuleInfo shortNameLe :=
  ⟨fun a b c => strLe_trans a.short_name b.short_name c.short_name⟩


lemma on_page_markdown_eq_applySteps (markdown : Str) (config : BuildConfig) :
    on_page_markdown markdown config =
      applySteps (stepsFor (config.amplifier_modules.getD [])) markdown := by
  unfold on_page_markdown applySteps stepsFor
  rw [List.foldl_cons, List.foldl_map]


/-! Lookup facts about the discovery result. -/

lemma discover_modules_lookup (tomliAvail : Bool) (base : Dir) (t : ModuleType) :
    (discover_modules tomliAvail base).lookup t =
      some (List.insertionSort shortNameLe (collectFor tomliAvail base t)) := by
  cases t <;> rfl

lemma emptyModules_lookup (t : ModuleType) : emptyModules.lookup t = some [] := by
  cases t <;> rfl

lemma mem_moduleTypeKeys (t : ModuleType) : t ∈ moduleTypeKeys := by
  cases t <;> decide

lemma collectFor_eq_nil {tomliAvail : Bool} {base : Dir} {t : ModuleType}
    (h : ∀ e ∈ base.entries,
      (e.isDir && moduleTypeKeys.any
          (fun t' => (MODULE_TYPES t').prefixStr.isPrefixOf e.name)) = false) :
    collectFor tomliAvail base t = [] := by
  unfold collectFor
  rw [List.filterMap_eq_nil_iff]
  intro e he
  have h1 := h e he
  have h2 : (e.isDir && (MODULE_TYPES t).prefixStr.isPrefixOf e.name) = false := by
    rcases Bool.and_eq_false_iff.mp h1 with hd | ha
    · exact Bool.and_eq_false_iff.mpr (Or.inl hd)
    · refine Bool.and_eq_false_iff.mpr (Or.inr ?_)
      exact Bool.eq_false_iff.mpr (List.any_eq_false.mp ha t (mem_moduleTypeKeys t))
  rw [h2]
  rfl

/-- C4: for every base path with zero subdirectories matching any category
prefix — and in the standalone `on_config` case, where the derived base
path does not exist — the resulting mapping has every one of the five
categories present as a key, each mapped to the empty list (never a
missing key), and no error is raised (every embedded function is total). -/
theorem discovery_empty_categories :
    (∀ (tomliAvail : Bool) (base : Dir),
      (∀ e ∈ base.entries,
        (e.isDir && moduleTypeKeys.any
            (fun t' => (MODULE_TYPES t').prefixStr.isPrefixOf e.name)) = false) →
      ∀ t : ModuleType, (discover_modules tomliAvail base).lookup t = some []) ∧
    (∀ (tomliAvail : Bool) (config : BuildConfig), config.base = none →
      ∀ t : ModuleType,
        ((on_config tomliAvail config).amplifier_modules.getD []).lookup t = some []) := by
  constructor
  · intro avail base h t
    rw [discover_modules_lookup, collectFor_eq_nil h]
    rfl
  · intro avail config h t
    rcases config with ⟨b, am⟩
    simp only at h
    subst h
    exact emptyModules_lookup t

/-- Witness for C4 at a concrete base directory with one non-matching
entry, and at a concrete configuration with a missing base path. -/
theorem discovery_empty_categories_witness :
    (discover_modules true
        ⟨str "/repo",
          [{ name := str "docs", isDir := true, pyproject := none, readme := none }]⟩).lookup
      ModuleType.tool = some [] ∧
    ((on_config true ⟨none, none⟩).amplifier_modules.getD []).lookup
      ModuleType.context = some [] := by
  constructor
  · exact discovery_empty_categories.1 true _ (by decide) ModuleType.tool
  · exact discovery_empty_categories.2 true ⟨none, none⟩ rfl ModuleType.context

lemma filterMap_middle_none {α β : Type} (f : α → Option β) (l1 l2 : List α) (a : α)
    (h : f a = none) : (l1 ++ a :: l2).filterMap f = (l1 ++ l2).filterMap f := by
  simp [List.filterMap_append, List.filterMap_cons, h]

/-- C6: a candidate directory lacking a manifest file yields the absent
signal (`none`, not an error) from `get_module_info`, and removing such a
directory from the base path leaves the entire discovery result unchanged
— it is excluded from every category, even when its name matches a
category prefix. -/
theorem missing_manifest_excluded :
    (∀ (tomliAvail : Bool) (basePath : Str) (e : DirEntry), e.pyproject = none →
      get_module_info tomliAvail basePath e = none) ∧
    (∀ (tomliAvail : Bool) (p : Str) (l1 l2 : List DirEntry) (e : DirEntry),
      e.pyproject = none →
      discover_modules tomliAvail ⟨p, l1 ++ e :: l2⟩ =
        discover_modules tomliAvail ⟨p, l1 ++ l2⟩) := by
  have h1 : ∀ (tomliAvail : Bool) (basePath : Str) (e : DirEntry), e.pyproject = none →
      get_module_info tomliAvail basePath e = none := by
    intro avail bp e he
    unfold get_module_info
    rw [he]
  refine ⟨h1, ?_⟩
  intro avail p l1 l2 e he
  have hcol : ∀ t : ModuleType,
      collectFor avail ⟨p, l1 ++ e :: l2⟩ t = collectFor avail ⟨p, l1 ++ l2⟩ t := by
    intro t
    exact filterMap_middle_none _ l1 l2 e (by rw [h1 avail p e he]; split <;> rfl)
  unfold discover_modules
  simp only [hcol]

/-- Witness for C6: a directory whose name matches the tool prefix but
which has no manifest file contributes nothing to discovery. -/
theorem missing_manifest_excluded_witness :
    ({ name := str "amplifier-module-tool-ghost", isDir := true, pyproject := none,
       readme := none } : DirEntry).pyproject = none ∧
    get_module_info true (str "/r")
      { name := str "amplifier-module-tool-ghost", isDir := true, pyproject := none,
        readme := none } = none ∧
    discover_modules true
        ⟨str "/r",
          [{ name := str "amplifier-module-tool-ghost", isDir := true, pyproject := none,
             readme := none }]⟩ =
      discover_modules true ⟨str "/r", []⟩ := by
  refine ⟨rfl, missing_manifest_excluded.1 true (str "/r") _ rfl, ?_⟩
  exact missing_manifest_excluded.2 true (str "/r") [] [] _ rfl

/-- C5: every category list returned by `discover_modules` is sorted by
short name in ascending (case-sensitive) lexicographic order. -/
theorem discovered_lists_sorted (tomliAvail : Bool) (base : Dir) (t : ModuleType)
    (l : List ModuleInfo)
    (h : (discover_modules tomliAvail base).lookup t = some l) :
    List.Sorted shortNameLe l := by
  rw [discover_modules_lookup] at h
  injection h with h'
  subst h'
  exact List.sorted_insertionSort shortNameLe _

/-- Witness for C5: two tool modules discovered in reverse name order
come out sorted by short name. -/
theorem discovered_lists_sorted_witness :
    (discover_modules true
        ⟨str "/r",
          [{ name := str "amplifier-module-tool-zeta", isDir := true,
             pyproject := some none, readme := none },
           { name := str "amplifier-module-tool-alpha", isDir := true,
             pyproject := some none, readme := none }]⟩).lookup ModuleType.tool =
      some
        [{ name := str "amplifier-module-tool-alpha",
           path := str "/r/amplifier-module-tool-alpha", description := [],
           version := [], entry_point := [], readme_content := [],
           short_name := str "alpha" },
         { name := str "amplifier-module-tool-zeta",
           path := str "/r/amplifier-module-tool-zeta", description := [],
           version := [], entry_point := [], readme_content := [],
           short_name := str "zeta" }] ∧
    List.Sorted shortNameLe
      [{ name := str "amplifier-module-tool-alpha",
         path := str "/r/amplifier-module-tool-alpha", description := [],
         version := [], entry_point := [], readme_content := [],
         short_name := str "alpha" },
       { name := str "amplifier-module-tool-zeta",
         path := str "/r/amplifier-module-tool-zeta", description := [],
         version := [], entry_point := [], readme_content := [],
         short_name := str "zeta" }] := by
  refine ⟨by decide, ?_⟩
  exact discovered_lists_sorted true
    ⟨str "/r",
      [{ name := str "amplifier-module-tool-zeta", isDir := true,
         pyproject := some none, readme := none },
       { name := str "amplifier-module-tool-alpha", isDir := true,
         pyproject := some none, readme := none }]⟩ ModuleType.tool _ (by decide)

/-! Category membership of discovered records (claim C2). -/

lemma prefix_pair_free : ∀ t t' : ModuleType, t ≠ t' →
    (MODULE_TYPES t).prefixStr.isPrefixOf (MODULE_TYPES t').prefixStr = false := by
  decide

lemma get_module_info_name {tomliAvail : Bool} {bp : Str} {e : DirEntry}
    {i : ModuleInfo} (h : get_module_info tomliAvail bp e = some i) :
    i.name = e.name := by
  unfold get_module_info at h
  rcases hp : e.pyproject with _ | pr
  · rw [hp] at h
    exact absurd h (by simp)
  · rw [hp] at h
    injection h with h'
    subst h'
    rcases tomliAvail with _ | _ <;> rcases pr with _ | d <;>
      rcases hr : e.readme with _ | (_ | txt) <;> simp [hr]

lemma mem_collectFor {tomliAvail : Bool} {base : Dir} {t : ModuleType} {rec : ModuleInfo}
    (h : rec ∈ collectFor tomliAvail base t) :
    ∃ e ∈ base.entries, e.isDir = true ∧
      (MODULE_TYPES t).prefixStr.isPrefixOf e.name = true ∧
      rec.name = e.name ∧
      rec.short_name = e.name.drop (MODULE_TYPES t).prefixStr.length := by
  unfold collectFor at h
  rw [List.mem_filterMap] at h
  obtain ⟨e, he, hf⟩ := h
  by_cases hc : (e.isDir && (MODULE_TYPES t).prefixStr.isPrefixOf e.name) = true
  · rw [if_pos hc] at hf
    rw [Option.map_eq_some'] at hf
    obtain ⟨i, hgi, heq⟩ := hf
    obtain ⟨hd, hp⟩ := Bool.and_eq_true_iff.mp hc
    subst heq
    exact ⟨e, he, hd, hp, by simpa using get_module_info_name hgi, rfl⟩
  · rw [if_neg hc] at hf
    exact absurd hf (by simp)

/-- C2 (amended): every record produced by `discover_modules` belongs to
exactly one category — the one whose prefix matched — and its short name
equals the directory name with that prefix removed; the short name is
non-empty exactly when the directory name is strictly longer than the
prefix (a directory named exactly the prefix yields an empty short name). -/
theorem record_category_unique (tomliAvail : Bool) (base : Dir) (t : ModuleType)
    (l : List ModuleInfo) (rec : ModuleInfo)
    (hl : (discover_modules tomliAvail base).lookup t = some l) (hrec : rec ∈ l) :
    (MODULE_TYPES t).prefixStr.isPrefixOf rec.name = true ∧
    rec.short_name = rec.name.drop (MODULE_TYPES t).prefixStr.length ∧
    (rec.short_name ≠ [] ↔ (MODULE_TYPES t).prefixStr.length < rec.name.length) ∧
    (∀ (t' : ModuleType) (l' : List ModuleInfo), t' ≠ t →
      (discover_modules tomliAvail base).lookup t' = some l' → rec ∉ l') := by
  rw [discover_modules_lookup] at hl
  injection hl with hl'
  subst hl'
  have hmem := (List.perm_insertionSort shortNameLe _).mem_iff.mp hrec
  obtain ⟨e, he, hd, hp, hname, hshort⟩ := mem_collectFor hmem
  refine ⟨hname ▸ hp, by rw [hshort, hname], ?_, ?_⟩
  · rw [hshort, hname]
    constructor
    · intro hne
      by_contra hlt
      push_neg at hlt
      exact hne (List.drop_eq_nil_of_le hlt)
    · intro hlt hnil
      have := List.drop_eq_nil_iff.mp hnil
      omega
  · intro t' l' hne hl' hrec'
    rw [discover_modules_lookup] at hl'
    injection hl' with hl''
    subst hl''
    have hmem' := (List.perm_insertionSort shortNameLe _).mem_iff.mp hrec'
    obtain ⟨e', he', hd', hp', hname', hshort'⟩ := mem_collectFor hmem'
    have q1 : (MODULE_TYPES t).prefixStr <+: rec.name :=
      List.isPrefixOf_iff_prefix.mp (hname ▸ hp)
    have q2 : (MODULE_TYPES t').prefixStr <+: rec.name :=
      List.isPrefixOf_iff_prefix.mp (hname' ▸ hp')
    rcases List.prefix_or_prefix_of_prefix q1 q2 with hq | hq
    · have := List.isPrefixOf_iff_prefix.mpr hq
      rw [prefix_pair_free t t' (Ne.symm hne)] at this
      exact absurd this (by simp)
    · have := List.isPrefixOf_iff_prefix.mpr hq
      rw [prefix_pair_free t' t hne] at this
      exact absurd this (by simp)

/-- C2 counterexample: a directory named exactly the provider prefix (and
carrying a manifest) is discovered with an empty short name, refuting the
claim that short names are always non-empty. -/
theorem record_short_name_empty_counterexample :
    ((discover_modules true
        ⟨str "/r",
          [{ name := str "amplifier-module-provider-", isDir := true,
             pyproject := some none, readme := none }]⟩).lookup
        ModuleType.provider).map (fun l => l.map ModuleInfo.short_name) =
      some [([] : Str)] := by
  decide

/-- Witness for C2 (amended) at the spec's own example: the directory
`amplifier-module-tool-chat` yields short name `chat` in category `tool`
and in no other category. -/
theorem record_category_unique_witness :
    (discover_modules true
        ⟨str "/r",
          [{ name := str "amplifier-module-tool-chat", isDir := true,
             pyproject := some (some
               { description := some (str "Chat tool"), version := some (str "1.0"),
                 entryPointKeys := [str "chat-tool"] }),
             readme := none }]⟩).lookup ModuleType.tool =
      some [{ name := str "amplifier-module-tool-chat",
              path := str "/r/amplifier-module-tool-chat",
              description := str "Chat tool", version := str "1.0",
              entry_point := str "chat-tool", readme_content := [],
              short_name := str "chat" }] ∧
    ((MODULE_TYPES ModuleType.tool).prefixStr.isPrefixOf
        ({ name := str "amplifier-module-tool-chat",
           path := str "/r/amplifier-module-tool-chat",
           description := str "Chat tool", version := str "1.0",
           entry_point := str "chat-tool", readme_content := [],
           short_name := str "chat" } : ModuleInfo).name = true ∧
      ({ name := str "amplifier-module-tool-chat",
         path := str "/r/amplifier-module-tool-chat",
         description := str "Chat tool", version := str "1.0",
         entry_point := str "chat-tool", readme_content := [],
         short_name := str "chat" } : ModuleInfo).short_name =
        ({ name := str "amplifier-module-tool-chat",
           path := str "/r/amplifier-module-tool-chat",
           description := str "Chat tool", version := str "1.0",
           entry_point := str "chat-tool", readme_content := [],
           short_name := str "chat" } : ModuleInfo).name.drop
          (MODULE_TYPES ModuleType.tool).prefixStr.length ∧
      (({ name := str "amplifier-module-tool-chat",
          path := str "/r/amplifier-module-tool-chat",
          description := str "Chat tool", version := str "1.0",
          entry_point := str "chat-tool", readme_content := [],
          short_name := str "chat" } : ModuleInfo).short_name ≠ [] ↔
        (MODULE_TYPES ModuleType.tool).prefixStr.length <
          ({ name := str "amplifier-module-tool-chat",
             path := str "/r/amplifier-module-tool-chat",
             description := str "Chat tool", version := str "1.0",
             entry_point := str "chat-tool", readme_content := [],
             short_name := str "chat" } : ModuleInfo).name.length) ∧
      (∀ (t' : ModuleType) (l' : List ModuleInfo), t' ≠ ModuleType.tool →
        (discover_modules true
            ⟨str "/r",
              [{ name := str "amplifier-module-tool-chat", isDir := true,
                 pyproject := some (some
                   { description := some (str "Chat tool"), version := some (str "1.0"),
                     entryPointKeys := [str "chat-tool"] }),
                 readme := none }]⟩).lookup t' = some l' →
          { name := str "amplifier-module-tool-chat",
            path := str "/r/amplifier-module-tool-chat",
            description := str "Chat tool", version := str "1.0",
            entry_point := str "chat-tool", readme_content := [],
            short_name := str "chat" } ∉ l')) := by
  refine ⟨by decide, ?_⟩
  exact record_category_unique true
    ⟨str "/r",
      [{ name := str "amplifier-module-tool-chat", isDir := true,
         pyproject := some (some
           { description := some (str "Chat tool"), version := some (str "1.0"),
             entryPointKeys := [str "chat-tool"] }),
         readme := none }]⟩ ModuleType.tool
    [{ name := str "amplifier-module-tool-chat",
       path := str "/r/amplifier-module-tool-chat",
       description := str "Chat tool", version := str "1.0",
       entry_point := str "chat-tool", readme_content := [],
       short_name := str "chat" }] _ (by decide) (by decide)

/-! The readme heading filter of `generate_module_page` (claim C1). -/

lemma headingFilterGo_true (lines : List Str) : headingFilterGo true lines = lines := by
  induction lines with
  | nil => rfl
  | cons line rest ih =>
    unfold headingFilterGo
    simp [ih]

lemma headingFilterGo_false_eq_eraseP (lines : List Str) :
    headingFilterGo false lines =
      List.eraseP (fun l => (str "# ").isPrefixOf l) lines := by
  induction lines with
  | nil => rfl
  | cons line rest ih =>
    unfold headingFilterGo
    by_cases hp : (str "# ").isPrefixOf line = true
    · simp [hp, headingFilterGo_true, List.eraseP_cons]
    · simp only [Bool.not_eq_true] at hp
      simp [hp, ih, List.eraseP_cons]

/-- C1: when the readme text is non-empty, `generate_module_page` appends
it after the fixed page template with exactly the first line (in document
order) that starts with a top-level heading marker removed, and no other
line altered. -/
theorem generate_module_page_strips (module_info : ModuleInfo) (module_type : ModuleType)
    (h : module_info.readme_content ≠ []) :
    generate_module_page module_info module_type =
      pageContentHeader module_info module_type ++
        joinSep (str "\n")
          (List.eraseP (fun l => (str "# ").isPrefixOf l)
            (replParts module_info.readme_content (str "\n"))) := by
  have hie : module_info.readme_content.isEmpty = false := by
    rcases hc : module_info.readme_content with _ | ⟨c, cs⟩
    · exact absurd hc h
    · rfl
  unfold generate_module_page
  simp only [hie, Bool.false_eq_true, if_false, headingFilterGo_false_eq_eraseP]
  rcases hE : List.eraseP (fun l => (str "# ").isPrefixOf l)
      (replParts module_info.readme_content (str "\n")) with _ | ⟨p, ps⟩
  · simp [joinSep]
  · simp [joinSep]

/-- Witness for C1: a readme that is exactly a heading line plus one body
line renders with only the body line appended after the template. -/
theorem generate_module_page_strips_witness :
    (({ name := str "amplifier-module-tool-chat",
        path := str "/r/amplifier-module-tool-chat",
        description := str "Chat tool", version := str "1.0",
        entry_point := str "chat-tool",
        readme_content := str "# My Tool\nBody text",
        short_name := str "chat" } : ModuleInfo).readme_content ≠ []) ∧
    generate_module_page
        { name := str "amplifier-module-tool-chat",
          path := str "/r/amplifier-module-tool-chat",
          description := str "Chat tool", version := str "1.0",
          entry_point := str "chat-tool",
          readme_content := str "# My Tool\nBody text",
          short_name := str "chat" } ModuleType.tool =
      pageContentHeader
          { name := str "amplifier-module-tool-chat",
            path := str "/r/amplifier-module-tool-chat",
            description := str "Chat tool", version := str "1.0",
            entry_point := str "chat-tool",
            readme_content := str "# My Tool\nBody text",
            short_name := str "chat" } ModuleType.tool ++ str "Body text" := by
  refine ⟨by decide, ?_⟩
  have h := generate_module_page_strips
    { name := str "amplifier-module-tool-chat",
      path := str "/r/amplifier-module-tool-chat",
      description := str "Chat tool", version := str "1.0",
      entry_point := str "chat-tool",
      readme_content := str "# My Tool\nBody text",
      short_name := str "chat" } ModuleType.tool (by decide)
  rw [h]
  rfl

/-! The description cell of the catalog table (claim C3). -/

lemma foldl_append_row {α : Type} (f : α → Str) :
    ∀ (l : List α) (init : Str),
      l.foldl (fun acc x => acc ++ f x) init = init ++ (l.map f).flatten := by
  intro l
  induction l with
  | nil => intro init; simp
  | cons x xs ih =>
    intro init
    simp [ih, List.append_assoc]

lemma containsSub_of_decomp {old : Str} (a b s : Str) (hs : s = a ++ old ++ b) :
    containsSub old s = true := by
  rw [hs]
  exact containsSub_append old a b

/-- C3: in the catalog table, every record's description cell is the
description truncated to its first 80 characters with an ellipsis
appended when the description is longer than 80 characters, and the
unchanged description (no ellipsis) otherwise. -/
theorem catalog_truncates (t : ModuleType) (l : List ModuleInfo) (m : ModuleInfo)
    (hm : m ∈ l) :
    containsSub
      (str "| [" ++ m.short_name ++ str "](" ++ (MODULE_TYPES t).docs_path ++ str "/" ++
        pyReplace m.short_name (str "-") (str "_") ++ str ".md) | " ++
        (if 80 < m.description.length then m.description.take 80 ++ str "..."
         else m.description) ++
        str " |\n")
      (generate_module_catalog [(t, l)]) = true := by
  have hne : l ≠ [] := List.ne_nil_of_mem hm
  have hcat : generate_module_catalog [(t, l)] = catalogSection t l := by
    unfold generate_module_catalog
    simp [hne]
  rw [hcat]
  obtain ⟨u, v, huv⟩ := List.append_of_mem hm
  have hrows : l.foldl (fun acc m' => acc ++ catalogRow t m') [] =
      (u.map (catalogRow t)).flatten ++ (catalogRow t m ++ (v.map (catalogRow t)).flatten) := by
    rw [huv, foldl_append_row]
    simp [List.append_assoc]
  refine containsSub_of_decomp
    (str "\n### " ++ (MODULE_TYPES t).display_name ++ str "\n\n" ++
      (MODULE_TYPES t).description ++
      str "\n\n| Module | Description |\n|--------|-------------|\n" ++
      (u.map (catalogRow t)).flatten)
    ((v.map (catalogRow t)).flatten ++ str "\n") _ ?_
  unfold catalogSection
  rw [hrows]
  simp only [catalogRow, List.append_assoc]


/-- Witness for C3: a 95-character description is truncated to its first
80 characters plus an ellipsis; an 80-character description is shown
unchanged with no ellipsis. -/
theorem catalog_truncates_witness :
    (({ name := str "amplifier-module-tool-big", path := str "/r/amplifier-module-tool-big",
        description := str "DDDDDDDDDDDDDDDDDDDDDDDDDDDDDDDDDDDDDDDDDDDDDDDDDDDDDDDDDDDDDDDDDDDDDDDDDDDDDDDDDDDDDDDDDDDDDDD",
        version := [], entry_point := [], readme_content := [],
        short_name := str "big" } : ModuleInfo) ∈
      [({ name := str "amplifier-module-tool-big", path := str "/r/amplifier-module-tool-big",
          description := str "DDDDDDDDDDDDDDDDDDDDDDDDDDDDDDDDDDDDDDDDDDDDDDDDDDDDDDDDDDDDDDDDDDDDDDDDDDDDDDDDDDDDDDDDDDDDDDD",
          version := [], entry_point := [], readme_content := [],
          short_name := str "big" } : ModuleInfo)]) ∧
    containsSub
      (str "| [" ++ str "big" ++ str "](" ++ (MODULE_TYPES ModuleType.tool).docs_path ++
        str "/" ++ pyReplace (str "big") (str "-") (str "_") ++ str ".md) | " ++
        (str "DDDDDDDDDDDDDDDDDDDDDDDDDDDDDDDDDDDDDDDDDDDDDDDDDDDDDDDDDDDDDDDDDDDDDDDDDDDDDDDD" ++ str "...") ++
        str " |\n")
      (generate_module_catalog [(ModuleType.tool,
        [{ name := str "amplifier-module-tool-big", path := str "/r/amplifier-module-tool-big",
           description := str "DDDDDDDDDDDDDDDDDDDDDDDDDDDDDDDDDDDDDDDDDDDDDDDDDDDDDDDDDDDDDDDDDDDDDDDDDDDDDDDDDDDDDDDDDDDDDDD",
           version := [], entry_point := [], readme_content := [],
           short_name := str "big" }])]) = true ∧
    containsSub
      (str "| [" ++ str "kit" ++ str "](" ++ (MODULE_TYPES ModuleType.tool).docs_path ++
        str "/" ++ pyReplace (str "kit") (str "-") (str "_") ++ str ".md) | " ++
        str "EEEEEEEEEEEEEEEEEEEEEEEEEEEEEEEEEEEEEEEEEEEEEEEEEEEEEEEEEEEEEEEEEEEEEEEEEEEEEEEE" ++
        str " |\n")
      (generate_module_catalog [(ModuleType.tool,
        [{ name := str "amplifier-module-tool-kit", path := str "/r/amplifier-module-tool-kit",
           description := str "EEEEEEEEEEEEEEEEEEEEEEEEEEEEEEEEEEEEEEEEEEEEEEEEEEEEEEEEEEEEEEEEEEEEEEEEEEEEEEEE",
           version := [], entry_point := [], readme_content := [],
           short_name := str "kit" }])]) = true := by
  refine ⟨by decide, ?_, ?_⟩
  · exact catalog_truncates ModuleType.tool _
      { name := str "amplifier-module-tool-big", path := str "/r/amplifier-module-tool-big",
        description := str "DDDDDDDDDDDDDDDDDDDDDDDDDDDDDDDDDDDDDDDDDDDDDDDDDDDDDDDDDDDDDDDDDDDDDDDDDDDDDDDDDDDDDDDDDDDDDDD",
        version := [], entry_point := [], readme_content := [],
        short_name := str "big" } (by decide)
  · exact catalog_truncates ModuleType.tool _
      { name := str "amplifier-module-tool-kit", path := str "/r/amplifier-module-tool-kit",
        description := str "EEEEEEEEEEEEEEEEEEEEEEEEEEEEEEEEEEEEEEEEEEEEEEEEEEEEEEEEEEEEEEEEEEEEEEEEEEEEEEEE",
        version := [], entry_point := [], readme_content := [],
        short_name := str "kit" } (by decide)

/-! Placeholder replacement on pages (claims C7, C8, C9). -/

lemma applySteps_skip (md : Str) :
    ∀ steps : List (Str × Str), (∀ st ∈ steps, containsSub st.1 md = false) →
      applySteps steps md = md := by
  intro steps
  induction steps with
  | nil => intro h; rfl
  | cons st rest ih =>
    intro h
    have h1 : applyStep md st = md := by
      unfold applyStep
      rw [h st (List.mem_cons_self st rest)]
      simp
    show List.foldl applyStep md (st :: rest) = md
    rw [List.foldl_cons, h1]
    exact ih (fun st' hst' => h st' (List.mem_cons_of_mem st hst'))

lemma stepsFor_fst {modules : List (ModuleType × List ModuleInfo)} {st : Str × Str}
    (hst : st ∈ stepsFor modules) : st.1 ∈ allMarkers := by
  unfold stepsFor at hst
  unfold allMarkers
  rcases List.mem_cons.mp hst with h | h
  · rw [h]
    exact List.mem_cons_self _ _
  · rw [List.mem_map] at h
    obtain ⟨t, ht, hEq⟩ := h
    refine List.mem_cons_of_mem _ ?_
    rw [List.mem_map]
    exact ⟨t, ht, by rw [← hEq]⟩

/-- C7: a page whose markdown contains none of the recognized placeholder
markers is returned by `on_page_markdown` unmodified, character for
character. -/
theorem no_markers_unchanged (markdown : Str) (config : BuildConfig)
    (h : ∀ m ∈ allMarkers, containsSub m markdown = false) :
    on_page_markdown markdown config = markdown := by
  rw [on_page_markdown_eq_applySteps]
  exact applySteps_skip markdown _ (fun st hst => h st.1 (stepsFor_fst hst))

/-- Witness for C7 on a concrete marker-free page. -/
theorem no_markers_unchanged_witness :
    (∀ m ∈ allMarkers,
      containsSub m (str "# Welcome\n\nNothing to replace here.") = false) ∧
    on_page_markdown (str "# Welcome\n\nNothing to replace here.") ⟨none, none⟩ =
      str "# Welcome\n\nNothing to replace here." :=
  ⟨by decide, no_markers_unchanged _ ⟨none, none⟩ (by decide)⟩

lemma applySteps_unique (md : Str) :
    ∀ (steps : List (Str × Str)) (st : Str × Str), st ∈ steps →
      steps.Pairwise (fun a b => a.1 ≠ b.1) →
      (∀ st' ∈ steps, st'.1 ≠ st.1 → containsSub st'.1 md = false) →
      containsSub st.1 md = true →
      (∀ st' ∈ steps, st'.1 ≠ st.1 →
        containsSub st'.1 (pyReplace md st.1 st.2) = false) →
      applySteps steps md = pyReplace md st.1 st.2 := by
  intro steps
  induction steps with
  | nil => intro st hst; cases hst
  | cons a rest ih =>
    intro st hst hnd hpre hc hpost
    rcases List.mem_cons.mp hst with rfl | hst'
    · show List.foldl applyStep md (st :: rest) = _
      rw [List.foldl_cons]
      have h2 : applyStep md st = pyReplace md st.1 st.2 := by
        unfold applyStep
        rw [hc]
        simp
      rw [h2]
      refine applySteps_skip _ rest (fun st' hst' => ?_)
      have hne : st'.1 ≠ st.1 :=
        Ne.symm ((List.pairwise_cons.mp hnd).1 st' hst')
      exact hpost st' (List.mem_cons_of_mem _ hst') hne
    · show List.foldl applyStep md (a :: rest) = _
      rw [List.foldl_cons]
      have hanot : a.1 ≠ st.1 := (List.pairwise_cons.mp hnd).1 st hst'
      have h1 : applyStep md a = md := by
        unfold applyStep
        rw [hpre a (List.mem_cons_self a rest) hanot]
        simp
      rw [h1]
      exact ih st hst' (List.pairwise_cons.mp hnd).2
        (fun st' h' hne => hpre st' (List.mem_cons_of_mem _ h') hne) hc
        (fun st' h' hne => hpost st' (List.mem_cons_of_mem _ h') hne)

/-- C8: when a page contains two or more occurrences of one recognized
placeholder marker (and no other recognized marker occurs in the page or
in its replaced form), `on_page_markdown` replaces every occurrence of
that marker, and all occurrences receive the identical replacement
string: the result is the fragments of the page between occurrences
joined with that single replacement. -/
theorem duplicate_markers_identical (markdown : Str) (config : BuildConfig)
    (st : Str × Str)
    (hst : st ∈ stepsFor (config.amplifier_modules.getD []))
    (hocc : 3 ≤ (replParts markdown st.1).length)
    (hothers : ∀ m ∈ allMarkers, m ≠ st.1 →
      containsSub m markdown = false ∧
      containsSub m (pyReplace markdown st.1 st.2) = false) :
    on_page_markdown markdown config = joinSep st.2 (replParts markdown st.1) := by
  rw [on_page_markdown_eq_applySteps]
  have hc : containsSub st.1 markdown = true :=
    containsSub_of_replParts_length (by omega)
  have hdist : allMarkers.Pairwise Ne := by decide
  have hnd : (stepsFor (config.amplifier_modules.getD [])).Pairwise
      (fun a b => a.1 ≠ b.1) := List.pairwise_map.mp hdist
  exact (applySteps_unique markdown _ st hst hnd
      (fun st' h' hne => (hothers st'.1 (stepsFor_fst h') hne).1) hc
      (fun st' h' hne => (hothers st'.1 (stepsFor_fst h') hne).2)).trans
    (pyReplace_eq_joinSep st.1 st.2 markdown.length markdown (Nat.le_refl _))

/-- Witness for C8: a page with two tool-list placeholders, rendered with
an empty module mapping, receives the no-modules message at both
occurrences. -/
theorem duplicate_markers_identical_witness :
    ((listPlaceholder ModuleType.tool,
        generate_module_list
          (((([] : List (ModuleType × List ModuleInfo))).lookup ModuleType.tool).getD [])
          ModuleType.tool) ∈ stepsFor []) ∧
    3 ≤ (replParts (str "A<!-- MODULE_LIST_TOOL -->B<!-- MODULE_LIST_TOOL -->C")
          (listPlaceholder ModuleType.tool)).length ∧
    on_page_markdown (str "A<!-- MODULE_LIST_TOOL -->B<!-- MODULE_LIST_TOOL -->C")
        ⟨none, none⟩ =
      joinSep (str "*No modules found.*")
        (replParts (str "A<!-- MODULE_LIST_TOOL -->B<!-- MODULE_LIST_TOOL -->C")
          (listPlaceholder ModuleType.tool)) ∧
    on_page_markdown (str "A<!-- MODULE_LIST_TOOL -->B<!-- MODULE_LIST_TOOL -->C")
        ⟨none, none⟩ =
      str "A*No modules found.*B*No modules found.*C" := by
  refine ⟨by decide, by decide, ?_, by decide⟩
  exact duplicate_markers_identical
    (str "A<!-- MODULE_LIST_TOOL -->B<!-- MODULE_LIST_TOOL -->C") ⟨none, none⟩
    (listPlaceholder ModuleType.tool,
      generate_module_list
        (((([] : List (ModuleType × List ModuleInfo))).lookup ModuleType.tool).getD [])
        ModuleType.tool)
    (by decide) (by decide) (by decide)

/-- C9: when the configuration carries no stored module mapping at all,
`on_page_markdown` still terminates with defined output: the catalog
placeholder is replaced by the empty string and every per-category
placeholder by the fixed no-modules message. -/
theorem absent_mapping_defaults (markdown : Str) (config : BuildConfig)
    (h : config.amplifier_modules = none) :
    on_page_markdown markdown config =
      applySteps ((catalogMarker, []) ::
        moduleTypeKeys.map (fun t => (listPlaceholder t, str "*No modules found.*")))
        markdown := by
  rw [on_page_markdown_eq_applySteps, h]
  rfl

/-- Witness for C9 on a page containing the catalog marker and one list
marker, with a configuration on which `on_config` never ran. -/
theorem absent_mapping_defaults_witness :
    ((⟨none, none⟩ : BuildConfig).amplifier_modules = none) ∧
    on_page_markdown (str "X<!-- MODULE_CATALOG -->Y<!-- MODULE_LIST_HOOKS -->Z")
        ⟨none, none⟩ =
      applySteps ((catalogMarker, []) ::
        moduleTypeKeys.map (fun t => (listPlaceholder t, str "*No modules found.*")))
        (str "X<!-- MODULE_CATALOG -->Y<!-- MODULE_LIST_HOOKS -->Z") ∧
    on_page_markdown (str "X<!-- MODULE_CATALOG -->Y<!-- MODULE_LIST_HOOKS -->Z")
        ⟨none, none⟩ = str "XY*No modules found.*Z" :=
  ⟨rfl, absent_mapping_defaults _ ⟨none, none⟩ rfl, by decide⟩

/-! Behavior when the TOML parser is unavailable (claim C10). -/

/-- C10: when the optional TOML dependency is unavailable,
`get_module_info` never reads the manifest contents: a directory with a
manifest still yields a record whose name and path are set, whose
description, version and entry point are empty, and whose readme is still
read; and the module is still discovered in its category. -/
theorem tomli_unavailable_defaults :
    (∀ (basePath : Str) (e : DirEntry) (pr : Option PyprojectData),
      e.pyproject = some pr →
      get_module_info false basePath e = some
        { name := e.name, path := basePath ++ str "/" ++ e.name,
          description := [], version := [], entry_point := [],
          readme_content := readmeOf e, short_name := [] }) ∧
    (∀ (p : Str) (l1 l2 : List DirEntry) (e : DirEntry) (pr : Option PyprojectData)
        (t : ModuleType) (l : List ModuleInfo),
      e.pyproject = some pr → e.isDir = true →
      (MODULE_TYPES t).prefixStr.isPrefixOf e.name = true →
      (discover_modules false ⟨p, l1 ++ e :: l2⟩).lookup t = some l →
      ∃ rec ∈ l, rec.name = e.name) := by
  have h1 : ∀ (basePath : Str) (e : DirEntry) (pr : Option PyprojectData),
      e.pyproject = some pr →
      get_module_info false basePath e = some
        { name := e.name, path := basePath ++ str "/" ++ e.name,
          description := [], version := [], entry_point := [],
          readme_content := readmeOf e, short_name := [] } := by
    intro bp e pr hp
    unfold get_module_info
    rw [hp]
    rcases hr : e.readme with _ | (_ | txt) <;> simp [readmeOf, hr]
  refine ⟨h1, ?_⟩
  intro p l1 l2 e pr t l hp hd hpref hlook
  rw [discover_modules_lookup] at hlook
  injection hlook with hl
  subst hl
  refine ⟨{ name := e.name, path := p ++ str "/" ++ e.name, description := [],
            version := [], entry_point := [], readme_content := readmeOf e,
            short_name := e.name.drop (MODULE_TYPES t).prefixStr.length }, ?_, rfl⟩
  rw [(List.perm_insertionSort shortNameLe _).mem_iff]
  unfold collectFor
  rw [List.mem_filterMap]
  refine ⟨e, by simp, ?_⟩
  rw [if_pos (by rw [hd, hpref]; rfl)]
  rw [h1 p e pr hp]
  rfl

/-- Witness for C10: a hooks module with a fully populated, parseable
manifest still comes out with empty description, version and entry point
when the TOML parser is unavailable, and is still discovered. -/
theorem tomli_unavailable_defaults_witness :
    (({ name := str "amplifier-module-hooks-log", isDir := true,
        pyproject := some (some
          { description := some (str "Logging hooks"), version := some (str "2.0"),
            entryPointKeys := [str "hooks-log"] }),
        readme := some (some (str "# Log\nDetails")) } : DirEntry).pyproject =
      some (some
        { description := some (str "Logging hooks"), version := some (str "2.0"),
          entryPointKeys := [str "hooks-log"] })) ∧
    get_module_info false (str "/r")
        { name := str "amplifier-module-hooks-log", isDir := true,
          pyproject := some (some
            { description := some (str "Logging hooks"), version := some (str "2.0"),
              entryPointKeys := [str "hooks-log"] }),
          readme := some (some (str "# Log\nDetails")) } =
      some
        { name := str "amplifier-module-hooks-log",
          path := str "/r/amplifier-module-hooks-log",
          description := [], version := [], entry_point := [],
          readme_content := str "# Log\nDetails", short_name := [] } ∧
    (∃ rec ∈
        [({ name := str "amplifier-module-hooks-log",
            path := str "/r/amplifier-module-hooks-log",
            description := [], version := [], entry_point := [],
            readme_content := str "# Log\nDetails",
            short_name := str "log" } : ModuleInfo)],
      rec.name = str "amplifier-module-hooks-log") := by
  refine ⟨rfl, ?_, ?_⟩
  · exact tomli_unavailable_defaults.1 (str "/r") _ _ rfl
  · exact tomli_unavailable_defaults.2 (str "/r") [] []
      { name := str "amplifier-module-hooks-log", isDir := true,
        pyproject := some (some
          { description := some (str "Logging hooks"), version := some (str "2.0"),
            entryPointKeys := [str "hooks-log"] }),
        readme := some (some (str "# Log\nDetails")) }
      (some
        { description := some (str "Logging hooks"), version := some (str "2.0"),
          entryPointKeys := [str "hooks-log"] })
      ModuleType.hooks _ rfl rfl (by decide) (by decide)

end ModuleCatalog
